import Mathlib

/-!
Shallow embedding of the real-time fraud-detection core:
the state store (src/src/utils/state_store.py), the timestamp parser
(src/src/utils/time_utils.py) and the feature engine
(src/src/streaming_features.py).

Python dictionaries are modelled as insertion-ordered association lists
with Python dict semantics (lookup finds the first matching key; writing
an existing key overwrites in place; writing a fresh key appends).
Python floats are modelled as rationals.  Each call to time.time() is
modelled by an explicit parameter now; a method that reads the clock more
than once within one call is given a single now, matching the intent of
the code (the calls are microseconds apart).
-/

namespace FraudCore

/-- An event dictionary.  Optional fields model keys that may be absent:
the code reads them with dict.get and a default. -/
structure Event where
  user_id : String
  timestamp_unix : Option ℚ := none
  timestamp : Option String := none
  amount : Option ℚ := none
  merchant : Option String := none
  location : Option String := none
  payment_method : Option String := none
  deriving Repr, DecidableEq

/-- A feature vector: a Python dict from feature name to number. -/
abbrev FeatMap := List (String × ℚ)

/-- Python dict lookup: first entry with the given key. -/
def lookupD {β : Type} : List (String × β) → String → Option β
  | [], _ => none
  | (k, v) :: rest, key => if k = key then some v else lookupD rest key

/-- Python dict assignment d[key] = v: overwrite in place if the key
exists, otherwise append at the end (insertion order). -/
def insertD {β : Type} : List (String × β) → String → β → List (String × β)
  | [], key, v => [(key, v)]
  | (k, w) :: rest, key, v =>
      if k = key then (key, v) :: rest else (k, w) :: insertD rest key v

/-- Python dict.update(src): assign every key of src in order. -/
def updateD {β : Type} (m src : List (String × β)) : List (String × β) :=
  src.foldl (fun acc kv => insertD acc kv.1 kv.2) m

/-- event.get with numeric default 0 for the timestamp_unix key
(state_store.py lines 62 and 81). -/
def tsOrZero (e : Event) : ℚ := e.timestamp_unix.getD 0

/-- event.get with numeric default 0 for the amount key
(streaming_features.py line 112). -/
def amountOrZero (e : Event) : ℚ := e.amount.getD 0

/-- The deque capacity: deque(maxlen=1000) in UserState (state_store.py
line 12). -/
def capacity : ℕ := 1000

/-- deque.append on a deque with maxlen: when full, the leftmost (oldest)
entry is dropped before the new one is appended. -/
def pushHistory (h : List Event) (e : Event) : List Event :=
  if capacity ≤ h.length then h.drop 1 ++ [e] else h ++ [e]

/-- State container for a single user (class UserState): bounded recent
events, feature vector, and the two timestamps.  Both timestamp fields
default to time.time() at creation. -/
structure UserState where
  recent_events : List Event
  feature_vector : FeatMap
  last_updated : ℚ
  created_at : ℚ
  deriving Repr, DecidableEq

/-- UserState() with its dataclass defaults, created at time now. -/
def mkUserState (now : ℚ) : UserState :=
  { recent_events := [], feature_vector := [], last_updated := now, created_at := now }

/-- The in-memory state store (class StateStore). -/
structure StateStore where
  max_window_minutes : ℤ
  cleanup_interval : ℤ
  last_cleanup : ℚ
  store : List (String × UserState)
  deriving Repr, DecidableEq

/-- StateStore(max_window_minutes=60, cleanup_interval=300) constructed at
time now, with an empty user map. -/
def mkStateStore (now : ℚ) : StateStore :=
  { max_window_minutes := 60, cleanup_interval := 300, last_cleanup := now, store := [] }

/-- StateStore.get_user_state: get or create the user state.  Returns the
state together with the (possibly extended) store. -/
def StateStore.get_user_state (s : StateStore) (uid : String) (now : ℚ) :
    UserState × StateStore :=
  match lookupD s.store uid with
  | some st => (st, s)
  | none =>
      let st := mkUserState now
      (st, { s with store := insertD s.store uid st })

/-- StateStore.update_user_events: append the event to the recent events
of the user (get-or-create) and stamp last_updated. -/
def StateStore.update_user_events (s : StateStore) (uid : String) (e : Event)
    (now : ℚ) : StateStore :=
  let p := s.get_user_state uid now
  let st := { p.1 with recent_events := pushHistory p.1.recent_events e, last_updated := now }
  { p.2 with store := insertD p.2.store uid st }

/-- StateStore.update_user_features: dict.update the feature vector of the
user (get-or-create) and stamp last_updated. -/
def StateStore.update_user_features (s : StateStore) (uid : String) (f : FeatMap)
    (now : ℚ) : StateStore :=
  let p := s.get_user_state uid now
  let st := { p.1 with feature_vector := updateD p.1.feature_vector f, last_updated := now }
  { p.2 with store := insertD p.2.store uid st }

/-- StateStore.get_user_features: a copy of the feature vector of the user
state obtained from get_user_state (which creates the state when the id is
unknown).  Returns the vector together with the resulting store. -/
def StateStore.get_user_features (s : StateStore) (uid : String) (now : ℚ) :
    FeatMap × StateStore :=
  let p := s.get_user_state uid now
  (p.1.feature_vector, p.2)

/-- The effective window in minutes used by get_recent_events:
window_minutes or self.max_window_minutes, where Python treats both None
and 0 as falsy. -/
def StateStore.windowEff (s : StateStore) (wm : Option ℤ) : ℤ :=
  match wm with
  | none => s.max_window_minutes
  | some w => if w = 0 then s.max_window_minutes else w

/-- StateStore.get_recent_events: empty list for an unknown id; otherwise
the events whose timestamp_unix (default 0) is strictly above
now - window_minutes * 60, in insertion order. -/
def StateStore.get_recent_events (s : StateStore) (uid : String) (wm : Option ℤ)
    (now : ℚ) : List Event :=
  match lookupD s.store uid with
  | none => []
  | some st =>
      let cutoff : ℚ := now - (s.windowEff wm : ℚ) * 60
      st.recent_events.filter (fun e => cutoff < tsOrZero e)

/-- The reap cutoff used by clear_old_entries:
current_time - max_window_minutes * 60. -/
def reapCutoff (s : StateStore) (now : ℚ) : ℚ :=
  now - (s.max_window_minutes : ℚ) * 60

/-- The removal test of clear_old_entries, applied before any trimming:
last_updated and created_at both below the cutoff and recent_events empty. -/
def staleUser (cutoff : ℚ) (st : UserState) : Bool :=
  decide (st.last_updated < cutoff) && decide (st.created_at < cutoff)
    && st.recent_events.isEmpty

/-- The while-popleft loop of clear_old_entries: drop leading events whose
timestamp_unix (default 0) is strictly below the cutoff, stopping at the
first event that is not. -/
def trimOld (cutoff : ℚ) : List Event → List Event
  | [] => []
  | e :: rest => if tsOrZero e < cutoff then trimOld cutoff rest else e :: rest

/-- One entry of the store as processed by clear_old_entries: removed when
stale (tested before trimming), otherwise kept with its history trimmed. -/
def reapEntry (cutoff : ℚ) (p : String × UserState) : Option (String × UserState) :=
  if staleUser cutoff p.2 then none
  else some (p.1, { p.2 with recent_events := trimOld cutoff p.2.recent_events })

/-- StateStore.clear_old_entries: returns the number of removed users and
the store after removal, trimming and the unconditional last_cleanup
update. -/
def StateStore.clear_old_entries (s : StateStore) (now : ℚ) : ℕ × StateStore :=
  let cutoff := reapCutoff s now
  ((s.store.filter (fun p => staleUser cutoff p.2)).length,
   { s with store := s.store.filterMap (reapEntry cutoff), last_cleanup := now })

/-- The result of StateStore.get_stats. -/
structure StoreStats where
  total_users : ℕ
  total_events : ℕ
  max_window_minutes : ℤ
  last_cleanup : ℚ
  deriving Repr, DecidableEq

/-- StateStore.get_stats: user count, summed history lengths, window
size, last cleanup time.  A pure read of the store. -/
def StateStore.get_stats (s : StateStore) : StoreStats :=
  { total_users := s.store.length
    total_events := (s.store.map (fun p => p.2.recent_events.length)).sum
    max_window_minutes := s.max_window_minutes
    last_cleanup := s.last_cleanup }

/-- StateStore.should_cleanup: now - last_cleanup > cleanup_interval. -/
def StateStore.should_cleanup (s : StateStore) (now : ℚ) : Bool :=
  decide ((s.cleanup_interval : ℚ) < now - s.last_cleanup)

/-- parse_timestamp (time_utils.py): replace Z by an explicit UTC offset,
hand the result to datetime.fromisoformat, and fall back to the current
time when parsing fails.  fromisoformat is Python library code outside
this repository, so it is a parameter: any partial parsing function from
strings to epochs.  The embedding is total, reflecting that the except
clause lets no error escape for string inputs. -/
def parse_timestamp (fromisoformat : String → Option ℚ) (now : ℚ) (s : String) : ℚ :=
  match fromisoformat (s.replace "Z" "+00:00") with
  | some t => t
  | none => now

/-- The default feature dict literal of RealTimeFeatureEngine.get_features,
in its source order. -/
def default_features : FeatMap :=
  [("transaction_velocity_1h", 0), ("amount_zscore", 0), ("location_anomaly", 0),
   ("time_pattern_score", 0), ("merchant_diversity", 0),
   ("payment_method_consistency", 1), ("amount_volatility", 0),
   ("location_consistency", 1)]

/-- The merge loop of get_features: for each default key not present in
features, assign the default value. -/
def fillDefaults (features : FeatMap) : FeatMap :=
  default_features.foldl
    (fun acc kv => if (lookupD acc kv.1).isSome then acc else insertD acc kv.1 kv.2)
    features

/-- RealTimeFeatureEngine.get_features: read the stored vector through
StateStore.get_user_features (which creates the state for an unknown id)
and fill in the missing defaults.  Returns the vector together with the
resulting store. -/
def get_features (s : StateStore) (uid : String) (now : ℚ) : FeatMap × StateStore :=
  let p := s.get_user_features uid now
  (fillDefaults p.1, p.2)

/-- statistics.mean over rationals. -/
def sampleMean (xs : List ℚ) : ℚ := xs.sum / (xs.length : ℚ)

/-- The argument of the square root inside statistics.stdev: the sample
variance with Bessel correction. -/
def sampleVariance (xs : List ℚ) : ℚ :=
  ((xs.map (fun x => (x - sampleMean xs) ^ 2)).sum) / ((xs.length : ℚ) - 1)

/-- The fallback standard deviation of _calculate_amount_features:
abs(mean) * 0.1 if the mean is nonzero, else 1.0. -/
def degenerateStd (mean : ℚ) : ℚ := if mean ≠ 0 then |mean| * (1 / 10) else 1

/-- The standard deviation actually used by _calculate_amount_features:
the fallback when there is exactly one historical amount; otherwise
statistics.stdev, replaced by the fallback when it is zero.  The square
root inside statistics.stdev has no exact rational counterpart, so it is
a parameter; every claim settled here concerns the degenerate branches,
which never evaluate it on a nonzero variance.  The except clause for
StatisticsError in the source is dead in this branch (stdev is only
called on two or more points). -/
def std_amount (sqrtQ : ℚ → ℚ) (historical : List ℚ) : ℚ :=
  let mean := sampleMean historical
  if historical.length = 1 then degenerateStd mean
  else
    let sd := sqrtQ (sampleVariance historical)
    if sd = 0 then degenerateStd mean else sd

/-- RealTimeFeatureEngine._calculate_amount_features: amounts via
event.get with default 0; zscore and volatility 0 when fewer than two
amounts; otherwise the z-score of the last amount against all earlier
ones, and the coefficient of variation (0 unless the mean is positive). -/
def calculate_amount_features (sqrtQ : ℚ → ℚ) (events : List Event) : FeatMap :=
  let amounts := events.map amountOrZero
  if amounts.length < 2 then [("amount_zscore", 0), ("amount_volatility", 0)]
  else
    let recent_amount := amounts.getLastD 0
    let historical := amounts.dropLast
    if historical.isEmpty then [("amount_zscore", 0), ("amount_volatility", 0)]
    else
      let mean := sampleMean historical
      let std := std_amount sqrtQ historical
      let zscore := (recent_amount - mean) / std
      let volatility := if 0 < mean then std / mean else 0
      [("amount_zscore", zscore), ("amount_volatility", volatility)]

/-- The timestamp-derivation step at the top of process_event: when the
event has a timestamp string but no numeric timestamp_unix, derive the
epoch with parse_timestamp on a copy of the event. -/
def normalizeEvent (fromisoformat : String → Option ℚ) (now : ℚ) (e : Event) : Event :=
  if e.timestamp_unix.isNone && e.timestamp.isSome then
    { e with timestamp_unix := some (parse_timestamp fromisoformat now (e.timestamp.getD "")) }
  else e

/-- RealTimeFeatureEngine.process_event.  The feature computation
(_calculate_features) runs after the append and may raise; the oracle
calc models it as Except, an error standing for any exception raised
inside the computation.  The surrounding try/except turns such an error
into the return value False, leaving the store exactly as the append left
it; on success the features are written back, the periodic cleanup may
run, and True is returned.  The embedding is a total function: no
exception propagates to the caller. -/
def process_event (fromisoformat : String → Option ℚ)
    (calcF : StateStore → String → Except Unit FeatMap)
    (s : StateStore) (e : Event) (now : ℚ) : Bool × StateStore :=
  let ev := normalizeEvent fromisoformat now e
  let uid := ev.user_id
  let s1 := s.update_user_events uid ev now
  match calcF s1 uid with
  | .error _ => (false, s1)
  | .ok features =>
      let s2 := s1.update_user_features uid features now
      let s3 := if s2.should_cleanup now then (s2.clear_old_entries now).2 else s2
      (true, s3)

/-! Concrete inputs used by the counterexamples and witnesses below. -/

/-- A store with one known user holding a single event 10 seconds old at
read time 10000; used to exhibit the zero-window fallback. -/
def storeC7 : StateStore :=
  { max_window_minutes := 60, cleanup_interval := 300, last_cleanup := 0,
    store := [("u", { recent_events := [{ user_id := "u", timestamp_unix := some 9990 }],
                      feature_vector := [], last_updated := 9990, created_at := 9990 })] }

/-- An event dictionary with no timestamp_unix key. -/
def eventNoTs : Event := { user_id := "u" }

/-- A store holding one user whose history is the single event without a
timestamp_unix key. -/
def storeC10 : StateStore :=
  { max_window_minutes := 60, cleanup_interval := 300, last_cleanup := 0,
    store := [("u", { recent_events := [eventNoTs], feature_vector := [],
                      last_updated := 1700000000, created_at := 1700000000 })] }

/-- An event carrying the epoch 0, long expired at reap time 10000. -/
def oldEventC1 : Event := { user_id := "u", timestamp_unix := some 0 }

/-- A user state stale on both timestamps whose whole history is expired. -/
def staleStateC1 : UserState :=
  { recent_events := [oldEventC1], feature_vector := [],
    last_updated := 0, created_at := 0 }

/-- A default-configured store holding only the stale user. -/
def storeC1 : StateStore :=
  { max_window_minutes := 60, cleanup_interval := 300, last_cleanup := 0,
    store := [("u", staleStateC1)] }

/-! Helper lemmas about the dict operations. -/

theorem lookupD_insertD_self {β : Type} (m : List (String × β)) (k : String) (v : β) :
    lookupD (insertD m k v) k = some v := by
  induction m with
  | nil => simp [insertD, lookupD]
  | cons p rest ih =>
      cases p with
      | mk a b =>
          by_cases h : a = k
          · simp [insertD, h, lookupD]
          · simp [insertD, h, lookupD, ih]

theorem lookupD_eq_none_of_not_mem {β : Type} (l : List (String × β)) (uid : String)
    (h : uid ∉ l.map Prod.fst) : lookupD l uid = none := by
  induction l with
  | nil => rfl
  | cons p rest ih =>
      simp only [List.map_cons, List.mem_cons] at h
      push_neg at h
      cases p with
      | mk a b =>
          simp only [lookupD]
          rw [if_neg (by simpa using fun hh => h.1 hh.symm), ih h.2]

theorem mem_of_lookupD_eq_some {β : Type} (l : List (String × β)) (uid : String) (v : β)
    (h : lookupD l uid = some v) : (uid, v) ∈ l := by
  induction l with
  | nil => simp [lookupD] at h
  | cons p rest ih =>
      cases p with
      | mk a b =>
          by_cases ha : a = uid
          · subst ha
            simp only [lookupD, if_pos rfl] at h
            cases h
            exact List.mem_cons_self _ _
          · simp only [lookupD, if_neg ha] at h
            exact List.mem_cons_of_mem _ (ih h)

end FraudCore

namespace FraudCore

/-- C4: for an entity id with no stored features (unknown id, or a state
whose feature vector is empty), the feature read of the engine returns
exactly the eight named features with their documented defaults:
velocity 0, zscore 0, location anomaly 0, time pattern 0, merchant
diversity 0, payment consistency 1, volatility 0, location consistency 1
-- never a partially populated map. -/
theorem C4_default_features (s : StateStore) (uid : String) (now : ℚ)
    (h : lookupD s.store uid = none ∨
         ∃ st, lookupD s.store uid = some st ∧ st.feature_vector = []) :
    (get_features s uid now).1 = default_features := by
  have hfv : (s.get_user_features uid now).1 = [] := by
    rcases h with h | ⟨st, h1, h2⟩
    · simp [StateStore.get_user_features, StateStore.get_user_state, h, mkUserState]
    · simp [StateStore.get_user_features, StateStore.get_user_state, h1, h2]
  have : (get_features s uid now).1 = fillDefaults [] := by
    simp [get_features, hfv]
  rw [this]
  decide

/-- Witness for C4 at a concrete input: the empty store. -/
theorem C4_default_features_witness :
    (get_features (mkStateStore 0) "u" 5).1 = default_features :=
  C4_default_features (mkStateStore 0) "u" 5 (Or.inl rfl)

/-- C9: reading features twice with no intervening event processing
returns identical results, whatever the store and the times of the two
reads; the first read has no effect on what the second read returns. -/
theorem C9_get_features_idempotent (s : StateStore) (uid : String) (now1 now2 : ℚ) :
    (get_features (get_features s uid now1).2 uid now2).1
      = (get_features s uid now1).1 := by
  cases hl : lookupD s.store uid with
  | some st =>
      simp [get_features, StateStore.get_user_features, StateStore.get_user_state, hl]
  | none =>
      simp [get_features, StateStore.get_user_features, StateStore.get_user_state, hl,
        lookupD_insertD_self, mkUserState]

/-- C3 counterexample: on a fresh store the id u is unknown, yet the pure
read get_user_features creates a state entry for it -- so state creation
is not restricted to the first appended event, contradicting the claim. -/
theorem C3_read_creates_state_cex :
    lookupD (mkStateStore 0).store "u" = none ∧
    lookupD ((mkStateStore 0).get_user_features "u" 5).2.store "u"
      = some (mkUserState 5) := by
  decide

/-- C3 amended: an EntityState is created lazily on first access through
get_user_state -- which is triggered by the first appended event, but
also by a feature read (get_user_features) and a feature write
(update_user_features); the state created by a bare feature read carries
an empty history and an empty feature vector, and the read returns the
empty vector. -/
theorem C3_lazy_creation (s : StateStore) (uid : String) (e : Event) (f : FeatMap)
    (now : ℚ) (h : lookupD s.store uid = none) :
    lookupD (s.update_user_events uid e now).store uid
      = some { recent_events := [e], feature_vector := [],
               last_updated := now, created_at := now } ∧
    lookupD (s.get_user_features uid now).2.store uid = some (mkUserState now) ∧
    lookupD (s.update_user_features uid f now).store uid
      = some { recent_events := [], feature_vector := updateD [] f,
               last_updated := now, created_at := now } ∧
    (s.get_user_features uid now).1 = [] := by
  refine ⟨?_, ?_, ?_, ?_⟩
  · simp [StateStore.update_user_events, StateStore.get_user_state, h,
      lookupD_insertD_self, mkUserState, pushHistory, capacity]
  · simp [StateStore.get_user_features, StateStore.get_user_state, h,
      lookupD_insertD_self]
  · simp [StateStore.update_user_features, StateStore.get_user_state, h,
      lookupD_insertD_self, mkUserState]
  · simp [StateStore.get_user_features, StateStore.get_user_state, h, mkUserState]

/-- C7 counterexample: with a requested window of 0 minutes the claimed
result is the filter with cutoff now - 0 * 60 = now, which is empty here,
but the code treats 0 as falsy, substitutes max_window_minutes = 60, and
returns the event. -/
theorem C7_zero_window_cex :
    storeC7.get_recent_events "u" (some 0) 10000
      = [{ user_id := "u", timestamp_unix := some 9990 }] ∧
    List.filter (fun e => decide ((10000 : ℚ) - (0 : ℚ) * 60 < tsOrZero e))
        [({ user_id := "u", timestamp_unix := some 9990 } : Event)] = [] := by
  constructor
  · norm_num [storeC7, StateStore.get_recent_events, StateStore.windowEff, lookupD,
      tsOrZero, List.filter]
  · norm_num [tsOrZero, List.filter]

/-- C7 amended: for a known id and a nonzero requested window of w
minutes, the windowed read returns exactly the events of the history with
timestamp_unix strictly above now - w * 60, in insertion order; for an
unknown id it returns the empty list.  A requested window of 0 (like
None) is falsy in Python and silently falls back to max_window_minutes. -/
theorem C7_windowed_filter (s : StateStore) (uid uid2 : String) (st : UserState)
    (w : ℤ) (now : ℚ) (h1 : lookupD s.store uid = some st) (hw : w ≠ 0)
    (h2 : lookupD s.store uid2 = none) :
    s.get_recent_events uid (some w) now
      = st.recent_events.filter (fun e => decide (now - (w : ℚ) * 60 < tsOrZero e)) ∧
    s.get_recent_events uid2 (some w) now = [] := by
  constructor
  · simp [StateStore.get_recent_events, h1, StateStore.windowEff, hw]
  · simp [StateStore.get_recent_events, h2]

/-- Witness for C7 amended at a concrete input: a 1-minute window on the
concrete store keeps the 10-second-old event and an unknown id reads
empty. -/
theorem C7_windowed_filter_witness :
    storeC7.get_recent_events "u" (some 1) 10000
      = List.filter (fun e => decide ((10000 : ℚ) - (1 : ℚ) * 60 < tsOrZero e))
          [({ user_id := "u", timestamp_unix := some 9990 } : Event)] ∧
    storeC7.get_recent_events "v" (some 1) 10000 = [] :=
  C7_windowed_filter storeC7 "u" "v"
    { recent_events := [{ user_id := "u", timestamp_unix := some 9990 }],
      feature_vector := [], last_updated := 9990, created_at := 9990 }
    1 10000 rfl (by norm_num) rfl

/-- C8: parse_timestamp is total (the except clause turns every parse
error into a fallback, so no exception reaches the caller) and for every
behavior of the underlying ISO-8601 parser it returns the parsed epoch on
success -- the input normalized by replacing Z with an explicit UTC
offset -- and the current time on failure. -/
theorem C8_parse_timestamp_fallback (fromisoformat : String → Option ℚ)
    (now : ℚ) (s : String) :
    (fromisoformat (s.replace "Z" "+00:00") = none →
       parse_timestamp fromisoformat now s = now) ∧
    (∀ t, fromisoformat (s.replace "Z" "+00:00") = some t →
       parse_timestamp fromisoformat now s = t) := by
  constructor
  · intro h; simp [parse_timestamp, h]
  · intro t h; simp [parse_timestamp, h]

/-- Witness for C8 at concrete inputs: under a parser that accepts
everything the parsed epoch 1704067200 is returned, and under a parser
that rejects everything the current time 99 is substituted. -/
theorem C8_parse_timestamp_fallback_witness :
    parse_timestamp (fun _ => some 1704067200) 99 "2024-01-01T00:00:00Z" = 1704067200 ∧
    parse_timestamp (fun _ => none) 99 "garbage" = 99 := by
  constructor
  · exact (C8_parse_timestamp_fallback (fun _ => some 1704067200)
      99 "2024-01-01T00:00:00Z").2 1704067200 rfl
  · exact (C8_parse_timestamp_fallback (fun _ => none) 99 "garbage").1 rfl

/-- C10 counterexample: the event has no timestamp_unix key, yet a
windowed read with a large enough window (30000000 minutes at epoch
1700000000, making the cutoff negative) returns it -- so such events are
not excluded from every windowed slice regardless of the window size. -/
theorem C10_large_window_cex :
    eventNoTs.timestamp_unix = none ∧
    storeC10.get_recent_events "u" (some 30000000) 1700000000 = [eventNoTs] := by
  constructor
  · rfl
  · norm_num [storeC10, eventNoTs, StateStore.get_recent_events, StateStore.windowEff,
      lookupD, tsOrZero, List.filter]

/-- C10 amended: an event without a numeric timestamp_unix is read as
epoch 0, so it is excluded from every windowed slice whose cutoff
now - w * 60 is nonnegative (every realistic window), and the reap trim
drops it from the front of the history whenever the reap cutoff is
positive and the trimming reaches it. -/
theorem C10_missing_ts_as_zero (s : StateStore) (uid : String) (wm : Option ℤ)
    (now cutoff : ℚ) (e : Event) (rest : List Event)
    (he : e.timestamp_unix = none)
    (hcut : 0 ≤ now - (s.windowEff wm : ℚ) * 60)
    (hc2 : 0 < cutoff) :
    e ∉ s.get_recent_events uid wm now ∧
    trimOld cutoff (e :: rest) = trimOld cutoff rest := by
  constructor
  · cases hl : lookupD s.store uid with
    | none => simp [StateStore.get_recent_events, hl]
    | some st =>
        simp only [StateStore.get_recent_events, hl]
        intro hmem
        have := (List.mem_filter.mp hmem).2
        simp only [tsOrZero, he, Option.getD_none, decide_eq_true_eq] at this
        exact absurd this (by linarith)
  · simp [trimOld, tsOrZero, he, hc2]

/-- Witness for C10 amended at a concrete input: a 60-minute window at
epoch 10000 excludes the event, and a reap cutoff of 6400 trims it. -/
theorem C10_missing_ts_as_zero_witness :
    eventNoTs ∉ storeC10.get_recent_events "u" (some 60) 10000 ∧
    trimOld 6400 [eventNoTs] = trimOld 6400 [] :=
  C10_missing_ts_as_zero storeC10 "u" (some 60) 10000 6400 eventNoTs []
    rfl (by norm_num [storeC10, StateStore.windowEff]) (by norm_num)

/-- One bounded append keeps the history within capacity. -/
theorem pushHistory_length_le (h : List Event) (e : Event) (hh : h.length ≤ capacity) :
    (pushHistory h e).length ≤ capacity := by
  have hcap : capacity = 1000 := rfl
  unfold pushHistory
  by_cases hc : capacity ≤ h.length
  · rw [if_pos hc]
    simp only [List.length_append, List.length_drop, List.length_cons, List.length_nil]
    omega
  · rw [if_neg hc]
    simp only [List.length_append, List.length_cons, List.length_nil]
    omega

/-- Any sequence of bounded appends keeps the history within capacity. -/
theorem foldl_pushHistory_length_le (es : List Event) (h : List Event)
    (hh : h.length ≤ capacity) : (es.foldl pushHistory h).length ≤ capacity := by
  induction es generalizing h with
  | nil => simpa using hh
  | cons e rest ih => exact ih _ (pushHistory_length_le h e hh)

/-- C6: the history length never exceeds the capacity 1000 under any
sequence of appends; an append to a history at capacity drops exactly the
single oldest entry, whatever its timestamp; and a windowed read on a
store whose histories respect the capacity never returns more than
capacity events, whatever window is requested. -/
theorem C6_capacity_bound (h g : List Event) (e : Event) (es : List Event)
    (s : StateStore) (uid : String) (wm : Option ℤ) (now : ℚ)
    (hh : h.length ≤ capacity) (hg : g.length = capacity)
    (hs : ∀ p ∈ s.store, p.2.recent_events.length ≤ capacity) :
    (es.foldl pushHistory h).length ≤ capacity ∧
    pushHistory g e = g.drop 1 ++ [e] ∧
    (s.get_recent_events uid wm now).length ≤ capacity := by
  refine ⟨foldl_pushHistory_length_le es h hh, ?_, ?_⟩
  · simp [pushHistory, hg]
  · cases hl : lookupD s.store uid with
    | none => simp [StateStore.get_recent_events, hl, capacity]
    | some st =>
        have hmem := mem_of_lookupD_eq_some _ _ _ hl
        have hlen := hs _ hmem
        simp only [StateStore.get_recent_events, hl]
        exact le_trans (List.length_filter_le _ _) hlen

/-- Witness for C6 at concrete inputs: the empty history, a history of
1000 copies of one event, and the empty store. -/
theorem C6_capacity_bound_witness :
    (([eventNoTs].foldl pushHistory []).length ≤ capacity ∧
     pushHistory (List.replicate capacity eventNoTs) eventNoTs
       = (List.replicate capacity eventNoTs).drop 1 ++ [eventNoTs] ∧
     ((mkStateStore 0).get_recent_events "u" none 0).length ≤ capacity) :=
  C6_capacity_bound [] (List.replicate capacity eventNoTs) eventNoTs [eventNoTs]
    (mkStateStore 0) "u" none 0 (by simp) (List.length_replicate _ _)
    (by simp [mkStateStore])

/-- C5: the feature computation runs only after the event has been
appended; when it raises (the calcF oracle returns an error standing for
any exception inside _calculate_features), process_event returns False
and the store is exactly the store the append produced -- the appended
event remains, nothing else changed, and no exception reaches the caller
(the embedding is a total function); when the computation succeeds,
process_event returns True. -/
theorem C5_compute_fault_isolated (fromisoformat : String → Option ℚ)
    (calcF : StateStore → String → Except Unit FeatMap)
    (s : StateStore) (e : Event) (now : ℚ) :
    (calcF (s.update_user_events (normalizeEvent fromisoformat now e).user_id
        (normalizeEvent fromisoformat now e) now)
        (normalizeEvent fromisoformat now e).user_id = Except.error () →
      process_event fromisoformat calcF s e now
        = (false, s.update_user_events (normalizeEvent fromisoformat now e).user_id
            (normalizeEvent fromisoformat now e) now)) ∧
    (∀ f, calcF (s.update_user_events (normalizeEvent fromisoformat now e).user_id
        (normalizeEvent fromisoformat now e) now)
        (normalizeEvent fromisoformat now e).user_id = Except.ok f →
      (process_event fromisoformat calcF s e now).1 = true) := by
  constructor
  · intro hfail
    simp [process_event, hfail]
  · intro f hok
    simp [process_event, hok]

/-- Witness for C5 at concrete inputs: an oracle that always fails gives
False and leaves the store as the append left it; an oracle that always
succeeds gives True. -/
theorem C5_compute_fault_isolated_witness :
    process_event (fun _ => none) (fun _ _ => Except.error ()) (mkStateStore 0) eventNoTs 3
      = (false, (mkStateStore 0).update_user_events
          (normalizeEvent (fun _ => none) 3 eventNoTs).user_id
          (normalizeEvent (fun _ => none) 3 eventNoTs) 3) ∧
    (process_event (fun _ => none) (fun _ _ => Except.ok []) (mkStateStore 0) eventNoTs 3).1
      = true :=
  ⟨(C5_compute_fault_isolated (fun _ => none) (fun _ _ => Except.error ())
      (mkStateStore 0) eventNoTs 3).1 rfl,
   (C5_compute_fault_isolated (fun _ => none) (fun _ _ => Except.ok [])
      (mkStateStore 0) eventNoTs 3).2 [] rfl⟩

/-- C2 counterexample: a slice of two events with amounts 5 and 6 leaves
the single historical amount 5, mean 5 -- a degenerate stdev case.  The
code substitutes abs(5) * 0.1 = 0.5 and yields zscore 2, while the
claimed floor max(abs(mean) * 0.1, 1.0) = 1 would yield zscore 1. -/
theorem C2_floor_cex :
    std_amount (fun _ => 0) [5] = 1 / 2 ∧
    max (|sampleMean [5]| * (1 / 10)) 1 = 1 ∧
    lookupD (calculate_amount_features (fun _ => 0)
        [{ user_id := "u", amount := some 5 }, { user_id := "u", amount := some 6 }])
      "amount_zscore" = some 2 := by
  refine ⟨?_, ?_, ?_⟩
  · norm_num [std_amount, sampleMean, degenerateStd]
  · norm_num [sampleMean]
  · norm_num [calculate_amount_features, amountOrZero, std_amount, sampleMean,
      degenerateStd, lookupD]

/-- C2 amended: over a slice with at least two amounts, whenever the
stdev degenerates -- exactly one historical amount, or a sample stdev
over two or more historical amounts that evaluates to 0 -- the stdev used
for the z-score and the volatility is abs(mean) * 0.1 when the historical
mean is nonzero and 1.0 when it is zero, not the maximum of the two. -/
theorem C2_degenerate_std (sqrtQ : ℚ → ℚ) (events : List Event)
    (h2 : 2 ≤ events.length)
    (hdeg : (events.map amountOrZero).dropLast.length = 1 ∨
            sqrtQ (sampleVariance ((events.map amountOrZero).dropLast)) = 0) :
    std_amount sqrtQ ((events.map amountOrZero).dropLast)
      = degenerateStd (sampleMean ((events.map amountOrZero).dropLast)) ∧
    lookupD (calculate_amount_features sqrtQ events) "amount_zscore"
      = some (((events.map amountOrZero).getLastD 0
            - sampleMean ((events.map amountOrZero).dropLast))
          / degenerateStd (sampleMean ((events.map amountOrZero).dropLast))) ∧
    lookupD (calculate_amount_features sqrtQ events) "amount_volatility"
      = some (if 0 < sampleMean ((events.map amountOrZero).dropLast)
          then degenerateStd (sampleMean ((events.map amountOrZero).dropLast))
            / sampleMean ((events.map amountOrZero).dropLast)
          else 0) := by
  have hstd : std_amount sqrtQ ((events.map amountOrZero).dropLast)
      = degenerateStd (sampleMean ((events.map amountOrZero).dropLast)) := by
    unfold std_amount
    by_cases hl : (events.map amountOrZero).dropLast.length = 1
    · simp [hl]
    · rcases hdeg with hd | hd
      · exact absurd hd hl
      · simp [hl, hd]
  have hlen : ¬((events.map amountOrZero).length < 2) := by
    simp only [List.length_map, not_lt]
    exact h2
  have hne : (events.map amountOrZero).dropLast ≠ [] := by
    have hld : (events.map amountOrZero).dropLast.length = events.length - 1 := by
      simp [List.length_dropLast, List.length_map]
    intro hnil
    rw [hnil] at hld
    simp only [List.length_nil] at hld
    omega
  have hne2 : ¬((events.map amountOrZero).dropLast.isEmpty = true) := by
    simpa [List.isEmpty_iff] using hne
  refine ⟨hstd, ?_, ?_⟩
  · simp only [calculate_amount_features]
    rw [if_neg hlen, if_neg hne2, ← hstd]
    simp [lookupD]
  · simp only [calculate_amount_features]
    rw [if_neg hlen, if_neg hne2, ← hstd]
    simp [lookupD]

/-- Witness for C2 amended at a concrete input: two events with amounts 7
and 9, one historical amount. -/
theorem C2_degenerate_std_witness :
    std_amount (fun _ => 0)
        (([{ user_id := "u", amount := some 7 },
           { user_id := "u", amount := some 9 }] : List Event).map amountOrZero).dropLast
      = degenerateStd (sampleMean
          ((([{ user_id := "u", amount := some 7 },
              { user_id := "u", amount := some 9 }] : List Event).map amountOrZero).dropLast)) ∧
    lookupD (calculate_amount_features (fun _ => 0)
        [{ user_id := "u", amount := some 7 }, { user_id := "u", amount := some 9 }])
      "amount_zscore"
      = some (((([{ user_id := "u", amount := some 7 },
              { user_id := "u", amount := some 9 }] : List Event).map amountOrZero).getLastD 0
            - sampleMean ((([{ user_id := "u", amount := some 7 },
              { user_id := "u", amount := some 9 }] : List Event).map amountOrZero).dropLast))
          / degenerateStd (sampleMean ((([{ user_id := "u", amount := some 7 },
              { user_id := "u", amount := some 9 }] : List Event).map amountOrZero).dropLast))) ∧
    lookupD (calculate_amount_features (fun _ => 0)
        [{ user_id := "u", amount := some 7 }, { user_id := "u", amount := some 9 }])
      "amount_volatility"
      = some (if 0 < sampleMean ((([{ user_id := "u", amount := some 7 },
              { user_id := "u", amount := some 9 }] : List Event).map amountOrZero).dropLast)
          then degenerateStd (sampleMean ((([{ user_id := "u", amount := some 7 },
              { user_id := "u", amount := some 9 }] : List Event).map amountOrZero).dropLast))
            / sampleMean ((([{ user_id := "u", amount := some 7 },
              { user_id := "u", amount := some 9 }] : List Event).map amountOrZero).dropLast)
          else 0) :=
  C2_degenerate_std (fun _ => 0)
    [{ user_id := "u", amount := some 7 }, { user_id := "u", amount := some 9 }]
    (by norm_num) (Or.inl (by norm_num [amountOrZero]))

/-- The removal test in propositional form. -/
theorem staleUser_eq_true_iff (c : ℚ) (st : UserState) :
    staleUser c st = true ↔
      (st.last_updated < c ∧ st.created_at < c ∧ st.recent_events = []) := by
  simp [staleUser, List.isEmpty_iff, and_assoc]

/-- A key absent from a store survives reaping as absent. -/
theorem lookupD_filterMap_reapEntry_of_not_mem (c : ℚ)
    (l : List (String × UserState)) (uid : String)
    (h : uid ∉ l.map Prod.fst) :
    lookupD (l.filterMap (reapEntry c)) uid = none := by
  induction l with
  | nil => rfl
  | cons p rest ih =>
      cases p with
      | mk a st =>
          simp only [List.map_cons, List.mem_cons] at h
          push_neg at h
          by_cases hs : staleUser c st = true
          · simpa [List.filterMap_cons, reapEntry, hs] using ih h.2
          · simp only [List.filterMap_cons, reapEntry, hs, Bool.false_eq_true,
              if_false, lookupD]
            rw [if_neg (fun hh => h.1 hh.symm), ih h.2]

/-- What reaping does to the entry of a given key, on a store whose keys
are distinct (as the keys of a Python dict are): a stale entry is
removed, any other entry is kept with its history trimmed. -/
theorem lookupD_filterMap_reapEntry (c : ℚ) (l : List (String × UserState))
    (uid : String) (hnd : (l.map Prod.fst).Nodup) :
    lookupD (l.filterMap (reapEntry c)) uid =
      match lookupD l uid with
      | none => none
      | some st =>
          if staleUser c st then none
          else some { st with recent_events := trimOld c st.recent_events } := by
  induction l with
  | nil => rfl
  | cons p rest ih =>
      cases p with
      | mk a st =>
          simp only [List.map_cons, List.nodup_cons] at hnd
          by_cases ha : a = uid
          · subst ha
            by_cases hs : staleUser c st = true
            · simp only [List.filterMap_cons, reapEntry, hs, if_true, lookupD,
                if_pos rfl]
              exact lookupD_filterMap_reapEntry_of_not_mem c rest a hnd.1
            · simp [List.filterMap_cons, reapEntry, hs, lookupD]
          · by_cases hs : staleUser c st = true
            · simp only [List.filterMap_cons, reapEntry, hs, if_true, lookupD,
                if_neg ha]
              exact ih hnd.2
            · simp only [List.filterMap_cons, reapEntry, hs, Bool.false_eq_true,
                if_false, lookupD, if_neg ha]
              exact ih hnd.2

/-- C1 counterexample: at reap time 10000 the cutoff is 6400; both
timestamps of the user precede it and trimming empties its history, so
the claim says the user is deleted -- but the code tests emptiness before
trimming, keeps the user (with emptied history) and reports 0 removals. -/
theorem C1_empty_after_trim_retained_cex :
    staleStateC1.last_updated < reapCutoff storeC1 10000 ∧
    staleStateC1.created_at < reapCutoff storeC1 10000 ∧
    trimOld (reapCutoff storeC1 10000) staleStateC1.recent_events = [] ∧
    lookupD (storeC1.clear_old_entries 10000).2.store "u"
      = some { staleStateC1 with recent_events := [] } ∧
    (storeC1.clear_old_entries 10000).1 = 0 := by
  have hcut : reapCutoff storeC1 10000 = 6400 := by
    norm_num [reapCutoff, storeC1]
  refine ⟨?_, ?_, ?_, ?_, ?_⟩
  · rw [hcut]; norm_num [staleStateC1]
  · rw [hcut]; norm_num [staleStateC1]
  · rw [hcut]; norm_num [trimOld, staleStateC1, oldEventC1, tsOrZero]
  · have hstale : staleUser (reapCutoff storeC1 10000) staleStateC1 = false := by
      simp [staleUser, staleStateC1]
    have hmain : lookupD (storeC1.clear_old_entries 10000).2.store "u"
        = if staleUser (reapCutoff storeC1 10000) staleStateC1 then none
          else some { staleStateC1 with
            recent_events := trimOld (reapCutoff storeC1 10000) staleStateC1.recent_events } := by
      simp only [StateStore.clear_old_entries]
      rw [lookupD_filterMap_reapEntry _ _ _ (by simp [storeC1])]
      rw [show lookupD storeC1.store "u" = some staleStateC1 from rfl]
    rw [hmain, hstale]
    simp only [Bool.false_eq_true, if_false]
    rw [hcut]
    norm_num [trimOld, staleStateC1, oldEventC1, tsOrZero]
  · simp only [StateStore.clear_old_entries]
    rw [show storeC1.store = [("u", staleStateC1)] from rfl, List.filter_cons]
    simp [staleUser, staleStateC1]

/-- C1 amended: reap deletes an entity iff both of its timestamps precede
the cutoff and its history is empty when the reap starts, before this
sweep trims it; every entity whose history is nonempty at that moment --
in particular one with a remaining non-expired entry -- is retained, with
its history trimmed at the front up to the first non-expired entry.  An
entity emptied by the trimming of this sweep is only deleted by a later
reap. -/
theorem C1_reap_deletion_rule (s : StateStore) (now : ℚ) (uid : String)
    (st : UserState) (hnd : (s.store.map Prod.fst).Nodup)
    (h : lookupD s.store uid = some st) :
    (lookupD (s.clear_old_entries now).2.store uid = none ↔
       (st.last_updated < reapCutoff s now ∧ st.created_at < reapCutoff s now ∧
        st.recent_events = [])) ∧
    (st.recent_events ≠ [] →
       lookupD (s.clear_old_entries now).2.store uid
         = some { st with recent_events := trimOld (reapCutoff s now) st.recent_events }) := by
  have hmain : lookupD (s.clear_old_entries now).2.store uid
      = if staleUser (reapCutoff s now) st then none
        else some { st with recent_events := trimOld (reapCutoff s now) st.recent_events } := by
    simp only [StateStore.clear_old_entries]
    rw [lookupD_filterMap_reapEntry _ _ _ hnd, h]
  constructor
  · rw [hmain]
    by_cases hs : staleUser (reapCutoff s now) st = true
    · simp [hs, (staleUser_eq_true_iff _ _).mp hs]
    · simp only [hs, Bool.false_eq_true, if_false]
      constructor
      · intro hc; cases hc
      · intro hc
        exact absurd ((staleUser_eq_true_iff _ _).mpr hc) hs
  · intro hne
    rw [hmain]
    have hs : staleUser (reapCutoff s now) st = false := by
      rcases Bool.eq_false_or_eq_true (staleUser (reapCutoff s now) st) with hf | ht
      · exact absurd ((staleUser_eq_true_iff _ _).mp hf).2.2 hne
      · exact ht
    rw [hs]
    simp

/-- Witness for C1 amended at a concrete input: on the concrete stale
store, the user with nonempty history is not deleted and keeps a trimmed
history. -/
theorem C1_reap_deletion_rule_witness :
    (lookupD (storeC1.clear_old_entries 10000).2.store "u" = none ↔
       (staleStateC1.last_updated < reapCutoff storeC1 10000 ∧
        staleStateC1.created_at < reapCutoff storeC1 10000 ∧
        staleStateC1.recent_events = [])) ∧
    (staleStateC1.recent_events ≠ [] →
       lookupD (storeC1.clear_old_entries 10000).2.store "u"
         = some { staleStateC1 with
             recent_events := trimOld (reapCutoff storeC1 10000) staleStateC1.recent_events }) :=
  C1_reap_deletion_rule storeC1 10000 "u" staleStateC1 (by simp [storeC1]) rfl

/-- Witness for C3 amended at a concrete input. -/
theorem C3_lazy_creation_witness :
    lookupD ((mkStateStore 0).update_user_events "u" { user_id := "u" } 7).store "u"
      = some { recent_events := [{ user_id := "u" }], feature_vector := [],
               last_updated := 7, created_at := 7 } ∧
    lookupD ((mkStateStore 0).get_user_features "u" 7).2.store "u" = some (mkUserState 7) ∧
    lookupD ((mkStateStore 0).update_user_features "u" [("amount_zscore", 2)] 7).store "u"
      = some { recent_events := [], feature_vector := updateD [] [("amount_zscore", 2)],
               last_updated := 7, created_at := 7 } ∧
    ((mkStateStore 0).get_user_features "u" 7).1 = [] :=
  C3_lazy_creation (mkStateStore 0) "u" { user_id := "u" } [("amount_zscore", 2)] 7 rfl

end FraudCore
